import Mathlib

/-!
Shallow embedding of the `derive_builder` code-synthesis engine
(`src/derive_builder/src/lib.rs`) and of the builder artifacts it
generates, together with proofs of the specified properties.

The repository ships a single source file whose documented examples show
the exact shape of the generated code (`LoremBuilder`); the directive
resolver and the synthesizer bodies live in collaborating crates that are
not part of this repository snapshot, so those parts are modelled from the
specification, as marked on each definition.
-/

namespace DeriveBuilder

/-! ## Directive model -/

/-- Construction pattern for the builder: `owned`, `mutable` (the default)
or `immutable`. -/
inductive Pattern where
  | owned
  | mutable
  | immutable
deriving DecidableEq, Repr

/-- Setter visibility: public or private. -/
inductive Vis where
  | pub
  | priv
deriving DecidableEq, Repr

/-- Default-value directive payload: delegate to the type's `Default`, or
an explicit expression string evaluated lazily at build time. -/
inductive DefaultKind where
  | delegate
  | expr (s : String)
deriving DecidableEq, Repr

/-- Attachment location of a directive: the record itself or one of its
fields. -/
inductive Loc where
  | record
  | field (name : String)
deriving DecidableEq, Repr

/-- Modelled from the spec: raw directive text arrives from the front-end
parser as key / key(list) / key="value" items (the shape of `syn`
meta-items), not yet parsed into typed directives. -/
inductive RawMeta where
  | word (key : String)
  | nameValue (key : String) (value : String)
  | metaList (key : String) (items : List RawMeta)

/-- The head key of a raw directive item. -/
def RawMeta.key : RawMeta → String
  | .word k => k
  | .nameValue k _ => k
  | .metaList k _ => k

/-- All keys a raw directive item mentions: its head key and, for a list
item, the keys of its sub-items. -/
def RawMeta.keys : RawMeta → List String
  | .word k => [k]
  | .nameValue k _ => [k]
  | .metaList k items => k :: items.map RawMeta.key

/-- Typed representation of every recognized configuration directive
(the `Directive` tagged variant of the spec's data model). -/
inductive Directive where
  | pattern (p : Pattern)
  | setterSkip (b : Bool)
  | setterName (s : String)
  | setterPfx (s : String)
  | setterInto (b : Bool)
  | visibility (v : Vis)
  | trySetter (b : Bool)
  | defaultD (d : DefaultKind)
  | buildFnSkip (b : Bool)
  | buildFnName (s : String)
  | buildFnValidate (s : String)
  | deriveList (ts : List String)
deriving DecidableEq, Repr

/-- A configuration error names the offending directive key and its
attachment location. -/
structure ConfigError where
  key : String
  loc : Loc
deriving DecidableEq, Repr

/-! ## Directive resolution: record-level defaults, field-level overrides -/

/-- Directives that may be attached at record level, one optional slot per
axis (plus the record-only `build_fn.*` and `derive` axes, kept in
`EffectiveBuildConfig`). Modelled from the spec's directive table. -/
structure RecordLevelOptions where
  pattern : Option Pattern
  setterSkip : Option Bool
  setterPfx : Option String
  setterInto : Option Bool
  vis : Option Vis
  defaultK : Option DefaultKind
deriving DecidableEq, Repr

/-- Directives that may be attached at field level, one optional slot per
axis. `setterName` and `trySetter` exist only at field level. -/
structure FieldLevelOptions where
  pattern : Option Pattern
  setterSkip : Option Bool
  setterName : Option String
  setterPfx : Option String
  setterInto : Option Bool
  vis : Option Vis
  trySetter : Option Bool
  defaultK : Option DefaultKind
deriving DecidableEq, Repr

/-- Fully resolved per-field configuration. -/
structure EffectiveFieldConfig where
  pattern : Pattern
  setterSkip : Bool
  setterName : String
  setterInto : Bool
  vis : Vis
  trySetter : Bool
  defaultK : Option DefaultKind
deriving DecidableEq, Repr

/-- Setter-name resolution, first match wins: an explicit rename, else a
prefix joined to the field name with an underscore, else the bare field
name. Modelled from the spec (§4.1) and the source's "Setter Name/Prefix"
doc section. -/
def setter_name (fieldName : String) (rename : Option String)
    (pfx : Option String) : String :=
  match rename with
  | some n => n
  | none =>
    match pfx with
    | some p => p ++ "_" ++ fieldName
    | none => fieldName

/-- Modelled from the spec: the directive resolver (`field_options_from`
in the source, whose body lives outside this snapshot) merges record-level
and field-level directives, the field level shadowing the record level on
every axis independently; unset axes fall back to the documented defaults
(pattern `mutable`, setters kept, public, not fallible, no default). -/
def field_options_from (fieldName : String) (r : RecordLevelOptions)
    (f : FieldLevelOptions) : EffectiveFieldConfig :=
  { pattern := (f.pattern <|> r.pattern).getD .mutable
    setterSkip := (f.setterSkip <|> r.setterSkip).getD false
    setterName := setter_name fieldName f.setterName (f.setterPfx <|> r.setterPfx)
    setterInto := (f.setterInto <|> r.setterInto).getD false
    vis := (f.vis <|> r.vis).getD .pub
    trySetter := f.trySetter.getD false
    defaultK := f.defaultK <|> r.defaultK }

/-! ## Directive parsing (raw meta items to typed directives) -/

/-- Parse a boolean directive value given as a string. -/
def parseBoolStr : String → Option Bool
  | "true" => some true
  | "false" => some false
  | _ => none

/-- Parse a pattern directive value. -/
def parsePattern : String → Option Pattern
  | "owned" => some .owned
  | "mutable" => some .mutable
  | "immutable" => some .immutable
  | _ => none

/-- Modelled from the spec: recognize one sub-item of a `setter(...)`
directive list; `none` means unrecognized or malformed. `name` is only
legal on a field. -/
def recognizeSetterItem (loc : Loc) : RawMeta → Option Directive
  | .word "skip" => some (.setterSkip true)
  | .nameValue "skip" v => (parseBoolStr v).map .setterSkip
  | .nameValue "name" s =>
    match loc with
    | .field _ => some (.setterName s)
    | .record => none
  | .nameValue "prefix" s => some (.setterPfx s)
  | .word "into" => some (.setterInto true)
  | .nameValue "into" v => (parseBoolStr v).map .setterInto
  | _ => none

/-- Sub-item parser for `setter(...)`: a failure produces a
`ConfigError` naming the sub-item's key at the given location. -/
def parseSetterItem (loc : Loc) (m : RawMeta) : Except ConfigError Directive :=
  match recognizeSetterItem loc m with
  | some d => .ok d
  | none => .error ⟨m.key, loc⟩

/-- Modelled from the spec: recognize one sub-item of a `build_fn(...)`
directive list. -/
def recognizeBuildFnItem : RawMeta → Option Directive
  | .word "skip" => some (.buildFnSkip true)
  | .nameValue "skip" v => (parseBoolStr v).map .buildFnSkip
  | .nameValue "name" s => some (.buildFnName s)
  | .nameValue "validate" s => some (.buildFnValidate s)
  | _ => none

/-- Sub-item parser for `build_fn(...)`. -/
def parseBuildFnItem (loc : Loc) (m : RawMeta) : Except ConfigError Directive :=
  match recognizeBuildFnItem m with
  | some d => .ok d
  | none => .error ⟨m.key, loc⟩

/-- A `derive(...)` sub-item must be a bare trait name. -/
def deriveName : RawMeta → Option String
  | .word t => some t
  | _ => none

/-- Fallible traversal of a list, stopping at the first error; the
shallow embedding of a generation loop that propagates failures. -/
def exceptMapM (f : α → Except ε β) : List α → Except ε (List β)
  | [] => .ok []
  | a :: as =>
    match f a with
    | .error e => .error e
    | .ok b =>
      match exceptMapM f as with
      | .error e => .error e
      | .ok bs => .ok (b :: bs)

/-- Modelled from the spec: recognize a bare-word directive
(visibility, `try_setter` — legal only on a field —, `default`
delegation, and the `setter` re-enable). Anything else is an
unrecognized key. -/
def parseWord (loc : Loc) (k : String) : Except ConfigError (List Directive) :=
  match k with
  | "public" => .ok [.visibility .pub]
  | "private" => .ok [.visibility .priv]
  | "try_setter" =>
    match loc with
    | .field _ => .ok [.trySetter true]
    | .record => .error ⟨k, loc⟩
  | "default" => .ok [.defaultD .delegate]
  | "setter" => .ok [.setterSkip false]
  | _ => .error ⟨k, loc⟩

/-- Modelled from the spec: recognize a key="value" directive
(`default` expressions and the `pattern` axis, whose value must be one
of the three patterns). -/
def parseNameValue (loc : Loc) (k v : String) :
    Except ConfigError (List Directive) :=
  match k with
  | "default" => .ok [.defaultD (.expr v)]
  | "pattern" =>
    match parsePattern v with
    | some p => .ok [.pattern p]
    | none => .error ⟨k, loc⟩
  | _ => .error ⟨k, loc⟩

/-- Modelled from the spec: recognize a key(...) directive list
(`setter(...)` everywhere, `build_fn(...)` and `derive(...)` only at
record level). -/
def parseMetaList (loc : Loc) (k : String) (items : List RawMeta) :
    Except ConfigError (List Directive) :=
  match k with
  | "setter" => exceptMapM (parseSetterItem loc) items
  | "build_fn" =>
    match loc with
    | .record => exceptMapM (parseBuildFnItem loc) items
    | .field _ => .error ⟨k, loc⟩
  | "derive" =>
    match loc with
    | .record =>
      match items.mapM deriveName with
      | some ts => .ok [.deriveList ts]
      | none => .error ⟨k, loc⟩
    | .field _ => .error ⟨k, loc⟩
  | _ => .error ⟨k, loc⟩

/-- Modelled from the spec: parse one raw directive item into typed
directives. Unrecognized keys, malformed values and wrong-scope
directives yield a `ConfigError` naming the offending key and the
attachment location; nothing is silently ignored. -/
def parseDirective (loc : Loc) : RawMeta → Except ConfigError (List Directive)
  | .word k => parseWord loc k
  | .nameValue k v => parseNameValue loc k v
  | .metaList k items => parseMetaList loc k items

/-- Parse all raw directive items attached at one location. -/
def parseDirectives (loc : Loc) (ms : List RawMeta) :
    Except ConfigError (List Directive) :=
  match exceptMapM (parseDirective loc) ms with
  | .error e => .error e
  | .ok dss => .ok dss.flatten

/-! ## Schema and synthesis pipeline -/

/-- A field of the input record: its name and its raw attached
directives (declared value types are opaque to the engine). -/
structure FieldSchema where
  name : String
  directives : List RawMeta

/-- The input record schema: name, record-level raw directives, ordered
fields. -/
structure RecordSchema where
  name : String
  recordDirectives : List RawMeta
  fields : List FieldSchema

/-- Fold a list of typed field-level directives into per-axis options;
a later directive on the same axis overrides an earlier one. -/
def applyFieldDirective (o : FieldLevelOptions) : Directive → FieldLevelOptions
  | .pattern p => { o with pattern := some p }
  | .setterSkip b => { o with setterSkip := some b }
  | .setterName s => { o with setterName := some s }
  | .setterPfx s => { o with setterPfx := some s }
  | .setterInto b => { o with setterInto := some b }
  | .visibility v => { o with vis := some v }
  | .trySetter b => { o with trySetter := some b }
  | .defaultD d => { o with defaultK := some d }
  | _ => o

/-- Field-level options with no axis set. -/
def FieldLevelOptions.empty : FieldLevelOptions :=
  ⟨none, none, none, none, none, none, none, none⟩

/-- Collect the field-level options from a field's typed directives. -/
def fieldOptionsOfDirectives (ds : List Directive) : FieldLevelOptions :=
  ds.foldl applyFieldDirective .empty

/-- Fold record-level typed directives into per-axis defaults. -/
def applyRecordDirective (o : RecordLevelOptions) : Directive → RecordLevelOptions
  | .pattern p => { o with pattern := some p }
  | .setterSkip b => { o with setterSkip := some b }
  | .setterPfx s => { o with setterPfx := some s }
  | .setterInto b => { o with setterInto := some b }
  | .visibility v => { o with vis := some v }
  | .defaultD d => { o with defaultK := some d }
  | _ => o

/-- Record-level options with no axis set. -/
def RecordLevelOptions.empty : RecordLevelOptions :=
  ⟨none, none, none, none, none, none⟩

/-- Collect the record-level option defaults from typed directives. -/
def recordOptionsOfDirectives (ds : List Directive) : RecordLevelOptions :=
  ds.foldl applyRecordDirective .empty

/-- The synthesized-artifact description: builder name (record name plus
the fixed `Builder` suffix), storage-field names, per-field resolved
configurations (fixing the setter names), and the record name. -/
structure SynthesizedArtifact where
  builderName : String
  storageFields : List String
  setters : List EffectiveFieldConfig
  targetName : String

/-- Modelled from the spec: the generation-time pipeline for one record —
parse record-level directives, parse every field's directives, resolve
each field's configuration against the record-level defaults, and
assemble the artifact description. Any `ConfigError` aborts the whole
synthesis; no partial artifact is produced. -/
def synthesize (s : RecordSchema) : Except ConfigError SynthesizedArtifact :=
  match parseDirectives .record s.recordDirectives with
  | .error e => .error e
  | .ok rds =>
    match exceptMapM
        (fun f =>
          match parseDirectives (.field f.name) f.directives with
          | .error e => .error e
          | .ok fds =>
            .ok (field_options_from f.name (recordOptionsOfDirectives rds)
              (fieldOptionsOfDirectives fds)))
        s.fields with
    | .error e => .error e
    | .ok cfgs =>
      .ok { builderName := s.name ++ "Builder"
            storageFields := s.fields.map FieldSchema.name
            setters := cfgs
            targetName := s.name }

/-! ## The entry point present in the source (`builder_for_struct`) -/

/-- The shape of the parsed item body (`syn::VariantData`): a braced
struct with named fields, a tuple struct, or a unit struct. -/
inductive VariantData where
  | structFields (fields : List FieldSchema)
  | tuple (arity : Nat)
  | unit

/-- The parsed item body (`syn::Body`): a struct or an enum. -/
inductive Body where
  | structBody (v : VariantData)
  | enumBody (variants : List String)

/-- The parsed derive input (`syn::MacroInput`): item name, record-level
raw directives, body. -/
structure MacroInput where
  ident : String
  attrs : List RawMeta
  body : Body

/-- Embedding of `builder_for_struct` from `src/derive_builder/src/lib.rs`
(lines 563-591): only a braced struct body proceeds to per-field
synthesis; every other body panics. In the source the function's
signature has no error channel at all, so both the body-shape panic and
any configuration failure are modelled as `none`. -/
def builder_for_struct (ast : MacroInput) : Option SynthesizedArtifact :=
  match ast.body with
  | .structBody (.structFields fields) =>
    (synthesize ⟨ast.ident, ast.attrs, fields⟩).toOption
  | _ => none

/-! ## Runtime semantics of the generated builder

The generated code's shape is documented in the source itself (the
`LoremBuilder` example, lib.rs lines 37-57): storage slots are `Option`
wrappers, a setter stores `Some value`, and the build body fetches each
slot in field-declaration order with
`.ok_or("<name> must be initialized")?`. Records are modelled as the
ordered list of their field values. -/

/-- Builder storage: one absence-representable slot per field, in
declaration order. -/
def Slots (α : Type) := List (Option α)

/-- Build-time description of one field: its name and, when a `default`
directive was resolved for it, a lazily evaluated default that sees the
whole builder state and may itself fail. A field with no default is
required. -/
structure FieldSpec (α : Type) where
  name : String
  defaultFn : Option (List (Option α) → Except String α)

/-- The generated initializer for one field (lib.rs lines 51-55 shape):
a set slot yields its stored value; an unset slot evaluates the default
when one exists; otherwise the build fails naming this field
(`"<name> must be initialized"`). -/
def initField (all : List (Option α)) (f : FieldSpec α) (slot : Option α) :
    Except String α :=
  match slot with
  | some v => .ok v
  | none =>
    match f.defaultFn with
    | some d => d all
    | none => .error (f.name ++ " must be initialized")

/-- Evaluate the field initializers in declaration order; the first
failure aborts immediately (the generated `?` operator). -/
def buildInits (all : List (Option α)) :
    List (FieldSpec α × Option α) → Except String (List α)
  | [] => .ok []
  | (f, s) :: rest =>
    match initField all f s with
    | .error e => .error e
    | .ok v =>
      match buildInits all rest with
      | .error e => .error e
      | .ok vs => .ok (v :: vs)

/-- The generated build operation: run every initializer in declaration
order, then, when `build_fn.validate` is configured, invoke the validator
on a read-only view of the builder state; a validator failure is returned
verbatim, only then is the record assembled. -/
def build (fs : List (FieldSpec α))
    (validate : Option (List (Option α) → Except String Unit))
    (slots : List (Option α)) : Except String (List α) :=
  match buildInits slots (fs.zip slots) with
  | .error e => .error e
  | .ok vs =>
    match validate with
    | none => .ok vs
    | some v =>
      match v slots with
      | .error e => .error e
      | .ok _ => .ok vs

/-- The generated infallible setter for field `i` (lib.rs lines 44-48
shape): store `Some value` into the slot. -/
def set_field (slots : List (Option α)) (i : Nat) (v : α) : List (Option α) :=
  slots.set i (some v)

/-- A fresh builder (`FooBuilder::default()`): every slot unset. -/
def emptyBuilder (α : Type) (n : Nat) : List (Option α) :=
  List.replicate n none

/-- Call the setters of fields `i, i+1, ...` in order with the given
values (the chained-setter usage from the source's examples). -/
def applySetters (slots : List (Option α)) (i : Nat) : List α → List (Option α)
  | [] => slots
  | v :: vs => applySetters (set_field slots i v) (i + 1) vs

/-- The generated fallible setter (`try_setter`, doc section lib.rs lines
223-270): convert the argument first; the `?` on the conversion returns
the conversion error before any write to the slot happens, so an error
result carries no builder update. -/
def try_set_field (slots : List (Option α)) (i : Nat)
    (conv : β → Except String α) (x : β) : Except String (List (Option α)) :=
  match conv x with
  | .error e => .error e
  | .ok v => .ok (set_field slots i v)

/-- The builder state observed by the caller after a fallible setter
call under the borrowing patterns: the updated state on success, the
original state on failure (the `&mut self` was never written). -/
def try_set_field_state (slots : List (Option α)) (i : Nat)
    (conv : β → Except String α) (x : β) : List (Option α) :=
  match try_set_field slots i conv x with
  | .ok s => s
  | .error _ => slots

/-! ## Pattern selection and signature shapes -/

/-- Receiver discipline of a generated method. -/
inductive Receiver where
  | consumed
  | mutBorrow
  | refBorrow
deriving DecidableEq, Repr

/-- Signature shape fixed by the construction pattern: how the setters
take and return the builder and how build takes it. -/
structure SignatureShape where
  setterReceiver : Receiver
  setterReturn : Receiver
  buildReceiver : Receiver
deriving DecidableEq, Repr

/-- Modelled from the spec (§4.2) and the source's pattern doc sections
(lib.rs lines 110-146): owned consumes everywhere; mutable takes and
returns an exclusive borrow and build reads only; immutable reads only
everywhere. -/
def select : Pattern → SignatureShape
  | .owned => ⟨.consumed, .consumed, .consumed⟩
  | .mutable => ⟨.mutBorrow, .mutBorrow, .refBorrow⟩
  | .immutable => ⟨.refBorrow, .refBorrow, .refBorrow⟩

/-- The pattern in effect: field-level over record-level, `mutable` when
neither is given (lib.rs lines 119-123). -/
def resolvedPattern (r f : Option Pattern) : Pattern :=
  (f <|> r).getD .mutable

/-- Run the build operation under a pattern, returning its result
together with the builder state still available to the caller
afterwards: under `owned` the receiver is consumed (`none`); under the
borrowing patterns the state survives unchanged, build having only
cloned out of it. -/
def buildRun (p : Pattern) (fs : List (FieldSpec α))
    (validate : Option (List (Option α) → Except String Unit))
    (slots : List (Option α)) :
    Except String (List α) × Option (List (Option α)) :=
  match p with
  | .owned => (build fs validate slots, none)
  | .mutable => (build fs validate slots, some slots)
  | .immutable => (build fs validate slots, some slots)

/-- The first field in declaration order that is unset and has no
default (the field the generated build operation's error must name). -/
def firstUnsetRequired : List (FieldSpec α × Option α) → Option String
  | [] => none
  | (f, none) :: rest =>
    match f.defaultFn with
    | none => some f.name
    | some _ => firstUnsetRequired rest
  | (_, some _) :: rest => firstUnsetRequired rest

/-! ## Helper lemmas -/

theorem exceptMapM_error_mem (f : α → Except ε β) (ms : List α) (e : ε)
    (h : exceptMapM f ms = .error e) : ∃ m ∈ ms, f m = .error e := by
  induction ms with
  | nil => simp [exceptMapM] at h
  | cons a as ih =>
    rw [exceptMapM] at h
    cases hfa : f a with
    | error e' =>
      rw [hfa] at h
      cases h
      exact ⟨a, List.mem_cons_self a as, hfa⟩
    | ok b =>
      rw [hfa] at h
      cases hrest : exceptMapM f as with
      | error e' =>
        rw [hrest] at h
        cases h
        obtain ⟨m, hm, hme⟩ := ih hrest
        exact ⟨m, List.mem_cons_of_mem a hm, hme⟩
      | ok bs => rw [hrest] at h; cases h

theorem exceptMapM_ok_forall (f : α → Except ε β) (ms : List α) (bs : List β)
    (h : exceptMapM f ms = .ok bs) : ∀ m ∈ ms, ∃ b, f m = .ok b := by
  induction ms generalizing bs with
  | nil => intro m hm; cases hm
  | cons a as ih =>
    rw [exceptMapM] at h
    cases hfa : f a with
    | error e' => rw [hfa] at h; cases h
    | ok b =>
      rw [hfa] at h
      cases hrest : exceptMapM f as with
      | error e' => rw [hrest] at h; cases h
      | ok bs' =>
        intro m hm
        rcases List.mem_cons.mp hm with rfl | hm'
        · exact ⟨b, hfa⟩
        · exact ih bs' hrest m hm'

/-! ## Claim theorems -/

/-- C4: the synthesized setter's name is resolved first-match-wins: an
explicit `setter.name` always wins (even over a prefix), otherwise a
`setter.prefix` in effect yields prefix-underscore-fieldname, otherwise
the bare field name; and the resolver computes the setter name exactly
this way from the field-level rename and the shadowing-resolved prefix. -/
theorem c4_setter_name_first_match_wins :
    (∀ (fn n : String) (p : Option String), setter_name fn (some n) p = n) ∧
    (∀ fn p : String, setter_name fn none (some p) = p ++ "_" ++ fn) ∧
    (∀ fn : String, setter_name fn none none = fn) ∧
    (∀ (fn : String) (r : RecordLevelOptions) (f : FieldLevelOptions),
      (field_options_from fn r f).setterName
        = setter_name fn f.setterName (f.setterPfx <|> r.setterPfx)) := by
  refine ⟨fun fn n p => rfl, fun fn p => rfl, fun fn => rfl, fun fn r f => rfl⟩

/-- C3: on every directive axis present at both levels, the resolver
uses the field-level value when the field sets the axis; when the field
does not set it, the record-level value (or the documented fallback)
applies as the default. -/
theorem c3_field_level_shadows_record_level (r : RecordLevelOptions)
    (f : FieldLevelOptions) (fn : String) :
    (∀ p, f.pattern = some p → (field_options_from fn r f).pattern = p) ∧
    (f.pattern = none →
      (field_options_from fn r f).pattern = r.pattern.getD .mutable) ∧
    (∀ b, f.setterSkip = some b → (field_options_from fn r f).setterSkip = b) ∧
    (f.setterSkip = none →
      (field_options_from fn r f).setterSkip = r.setterSkip.getD false) ∧
    (∀ b, f.setterInto = some b → (field_options_from fn r f).setterInto = b) ∧
    (f.setterInto = none →
      (field_options_from fn r f).setterInto = r.setterInto.getD false) ∧
    (∀ v, f.vis = some v → (field_options_from fn r f).vis = v) ∧
    (f.vis = none → (field_options_from fn r f).vis = r.vis.getD .pub) ∧
    (∀ d, f.defaultK = some d → (field_options_from fn r f).defaultK = some d) ∧
    (f.defaultK = none → (field_options_from fn r f).defaultK = r.defaultK) ∧
    (∀ p, f.setterName = none → f.setterPfx = some p →
      (field_options_from fn r f).setterName = p ++ "_" ++ fn) ∧
    (f.setterName = none → f.setterPfx = none →
      (field_options_from fn r f).setterName = setter_name fn none r.setterPfx) := by
  refine ⟨?_, ?_, ?_, ?_, ?_, ?_, ?_, ?_, ?_, ?_, ?_, ?_⟩ <;>
    intros <;> simp_all [field_options_from, setter_name]

/-- Witness for C3 at concrete option sets: one field setting every
axis (shadowing the record), one setting none (inheriting the record's
defaults). -/
theorem c3_witness :
    (field_options_from "f"
        ⟨some .owned, some true, some "rp", some true, some .priv, some .delegate⟩
        ⟨some .immutable, some false, none, some "fp", some false, some .pub,
          some true, some (.expr "e")⟩).pattern = .immutable ∧
    (field_options_from "f"
        ⟨some .owned, some true, some "rp", some true, some .priv, some .delegate⟩
        ⟨some .immutable, some false, none, some "fp", some false, some .pub,
          some true, some (.expr "e")⟩).setterName = "fp" ++ "_" ++ "f" ∧
    (field_options_from "f"
        ⟨some .owned, some true, some "rp", some true, some .priv, some .delegate⟩
        FieldLevelOptions.empty).pattern = Pattern.owned ∧
    (field_options_from "f"
        ⟨some .owned, some true, some "rp", some true, some .priv, some .delegate⟩
        FieldLevelOptions.empty).defaultK = some DefaultKind.delegate := by
  obtain ⟨h1, -, -, -, -, -, -, -, -, -, h11, -⟩ :=
    c3_field_level_shadows_record_level
      ⟨some .owned, some true, some "rp", some true, some .priv, some .delegate⟩
      ⟨some .immutable, some false, none, some "fp", some false, some .pub,
        some true, some (.expr "e")⟩ "f"
  obtain ⟨-, h2, -, -, -, -, -, -, -, h10, -, -⟩ :=
    c3_field_level_shadows_record_level
      ⟨some .owned, some true, some "rp", some true, some .priv, some .delegate⟩
      FieldLevelOptions.empty "f"
  exact ⟨h1 _ rfl, h11 _ rfl rfl, h2 rfl, h10 rfl⟩

/-- C7: calling the same setter with `v` and then `w` leaves the builder
exactly as a single call with `w` would, so building afterwards gives
the same result — the last write wins. -/
theorem c7_last_write_wins (fs : List (FieldSpec α))
    (validate : Option (List (Option α) → Except String Unit))
    (slots : List (Option α)) (i : Nat) (v w : α) :
    set_field (set_field slots i v) i w = set_field slots i w ∧
    build fs validate (set_field (set_field slots i v) i w)
      = build fs validate (set_field slots i w) := by
  have h : set_field (set_field slots i v) i w = set_field slots i w := by
    simp [set_field, List.set_set]
  exact ⟨h, by rw [h]⟩

/-- C5: the configured validator is consulted only after every field
initializer has succeeded; when it fails its error value is returned
verbatim (never wrapped), so the record is never assembled; and when an
initializer fails, the build error is that initializer's error no matter
what the validator would have said. -/
theorem c5_validator_short_circuits (fs : List (FieldSpec α))
    (V : List (Option α) → Except String Unit) (slots : List (Option α)) :
    (∀ vs e, buildInits slots (fs.zip slots) = .ok vs → V slots = .error e →
      build fs (some V) slots = .error e) ∧
    (∀ e, buildInits slots (fs.zip slots) = .error e →
      build fs (some V) slots = .error e) := by
  constructor
  · intro vs e hinit hV
    simp [build, hinit, hV]
  · intro e hinit
    simp [build, hinit]

/-- Witness for C5: a one-field builder with its slot set and an
always-failing validator; build returns the validator's error string
unchanged. -/
theorem c5_witness :
    build [⟨"ipsum", none⟩] (some fun _ => .error "Try harder")
      [some (42 : Nat)] = .error "Try harder" := by
  have h := c5_validator_short_circuits [(⟨"ipsum", none⟩ : FieldSpec Nat)]
    (fun _ => .error "Try harder") [some 42]
  exact h.1 [42] "Try harder" rfl rfl

/-- C6: when the fallible setter's conversion fails, the error is
surfaced to the runtime caller and every storage slot of the builder is
left unchanged. -/
theorem c6_try_setter_failure_frame (slots : List (Option α)) (i : Nat)
    (conv : β → Except String α) (x : β) (e : String)
    (h : conv x = .error e) :
    try_set_field slots i conv x = .error e ∧
    ∀ j, (try_set_field_state slots i conv x).get? j = slots.get? j := by
  constructor
  · simp [try_set_field, h]
  · intro j
    simp [try_set_field_state, try_set_field, h]

/-- Witness for C6: a failing conversion on a one-slot builder returns
the conversion error and slot 0 keeps its previous value. -/
theorem c6_witness :
    try_set_field [some (5 : Nat)] 0 (fun _ : Nat => .error "nope") 3
      = .error "nope" ∧
    (try_set_field_state [some (5 : Nat)] 0 (fun _ : Nat => .error "nope") 3).get? 0
      = (([some 5] : List (Option Nat))).get? 0 := by
  have h := c6_try_setter_failure_frame [some (5 : Nat)] 0
    (fun _ : Nat => (.error "nope" : Except String Nat)) 3 "nope" rfl
  exact ⟨h.1, h.2 0⟩

/-- C8: with no pattern directive the mutable pattern is selected, whose
shape takes and returns an exclusive borrow in setters and a read-only
borrow in build; under `owned` the build consumes its receiver; under the
borrowing patterns the builder state survives a build unchanged, so two
consecutive builds with no setter call in between give equal results. -/
theorem c8_pattern_conformance (α : Type) :
    resolvedPattern none none = Pattern.mutable ∧
    (select .mutable).setterReceiver = .mutBorrow ∧
    (select .mutable).setterReturn = .mutBorrow ∧
    (select .mutable).buildReceiver = .refBorrow ∧
    (select .owned).buildReceiver = .consumed ∧
    (∀ (fs : List (FieldSpec α)) V slots, (buildRun .owned fs V slots).2 = none) ∧
    (∀ p, p ≠ Pattern.owned → ∀ (fs : List (FieldSpec α)) V slots,
      (buildRun p fs V slots).2 = some slots ∧
      ∀ s', (buildRun p fs V slots).2 = some s' →
        (buildRun p fs V s').1 = (buildRun p fs V slots).1) := by
  refine ⟨rfl, rfl, rfl, rfl, rfl, fun fs V slots => rfl, ?_⟩
  intro p hp fs V slots
  cases p with
  | owned => exact absurd rfl hp
  | mutable =>
    refine ⟨rfl, ?_⟩
    intro s' hs'
    cases hs'
    rfl
  | immutable =>
    refine ⟨rfl, ?_⟩
    intro s' hs'
    cases hs'
    rfl

/-- Witness for C8: under the mutable pattern, a one-field builder's
state survives build and a second build gives the same record. -/
theorem c8_witness :
    (buildRun .mutable [(⟨"ipsum", none⟩ : FieldSpec Nat)] none [some 42]).2
      = some [some 42] ∧
    (buildRun .mutable [(⟨"ipsum", none⟩ : FieldSpec Nat)] none [some 42]).1
      = (buildRun .mutable [(⟨"ipsum", none⟩ : FieldSpec Nat)] none [some 42]).1 := by
  have h := (c8_pattern_conformance Nat).2.2.2.2.2.2 Pattern.mutable
    (by simp) [⟨"ipsum", none⟩] none [some 42]
  exact ⟨h.1, (h.2 [some 42] h.1).symm ▸ rfl⟩

theorem buildInits_prefix_abort (all : List (Option α))
    (ps₁ rest : List (FieldSpec α × Option α)) (n : String)
    (hdef : ∀ p ∈ ps₁, p.2 = none → ∀ d, p.1.defaultFn = some d →
      ∃ v, d all = .ok v)
    (hfirst : firstUnsetRequired ps₁ = some n) :
    buildInits all (ps₁ ++ rest) = .error (n ++ " must be initialized") := by
  induction ps₁ with
  | nil => simp [firstUnsetRequired] at hfirst
  | cons p ps ih =>
    obtain ⟨f, s⟩ := p
    cases s with
    | none =>
      cases hd : f.defaultFn with
      | none =>
        rw [firstUnsetRequired, hd] at hfirst
        cases hfirst
        simp [buildInits, initField, hd]
      | some d =>
        rw [firstUnsetRequired, hd] at hfirst
        obtain ⟨v, hv⟩ := hdef (f, none) (List.mem_cons_self _ _) rfl d hd
        have hrec := ih (fun q hq => hdef q (List.mem_cons_of_mem _ hq)) hfirst
        simp [buildInits, initField, hd, hv, hrec]
    | some v =>
      rw [firstUnsetRequired] at hfirst
      have hrec := ih (fun q hq => hdef q (List.mem_cons_of_mem _ hq)) hfirst
      simp [buildInits, initField, hrec]

/-- C1: when the field/slot sequence splits as a prefix whose first
unset-no-default field is `n` (earlier unset fields having succeeding
defaults) followed by arbitrary later fields, the generated build
operation fails naming exactly `n` — the first unset required field in
declaration order — without evaluating any later initializer and
without aggregating further missing fields. -/
theorem c1_first_missing_field_wins (fs : List (FieldSpec α))
    (slots : List (Option α))
    (validate : Option (List (Option α) → Except String Unit)) (n : String)
    (ps₁ rest : List (FieldSpec α × Option α))
    (hsplit : fs.zip slots = ps₁ ++ rest)
    (hdef : ∀ p ∈ ps₁, p.2 = none → ∀ d, p.1.defaultFn = some d →
      ∃ v, d slots = .ok v)
    (hfirst : firstUnsetRequired ps₁ = some n) :
    build fs validate slots = .error (n ++ " must be initialized") := by
  have h := buildInits_prefix_abort slots ps₁ rest n hdef hfirst
  rw [build, hsplit, h]

/-- Witness for C1: two required fields `a`, `b`, both unset; the build
error names `a`, the first in declaration order, and is unaffected by a
later field `c` whose initializer would fail. -/
theorem c1_witness :
    build [⟨"a", none⟩, ⟨"b", none⟩,
        ⟨"c", some fun _ => .error "later default fails"⟩]
      none ([none, none, none] : List (Option Nat))
      = .error ("a" ++ " must be initialized") := by
  refine c1_first_missing_field_wins _ _ none "a"
    [(⟨"a", none⟩, none), (⟨"b", none⟩, none)]
    [(⟨"c", some fun _ => .error "later default fails"⟩, none)] rfl ?_ rfl
  intro p hp hnone d hd
  rcases List.mem_cons.mp hp with rfl | hp'
  · simp at hd
  · rcases List.mem_cons.mp hp' with rfl | hp''
    · simp at hd
    · cases hp''

theorem set_field_append (pre rest : List (Option α)) (x : Option α) (v : α) :
    set_field (pre ++ x :: rest) pre.length v = pre ++ some v :: rest := by
  induction pre with
  | nil => rfl
  | cons a l _ih =>
    simp [set_field, List.set]

theorem applySetters_fill (vs : List α) :
    ∀ pre : List (Option α),
      applySetters (pre ++ List.replicate vs.length none) pre.length vs
        = pre ++ vs.map some := by
  induction vs with
  | nil => intro pre; simp [applySetters]
  | cons v vs ih =>
    intro pre
    have h1 : set_field (pre ++ List.replicate (vs.length + 1) none) pre.length v
        = (pre ++ [some v]) ++ List.replicate vs.length none := by
      simpa [List.replicate_succ] using
        set_field_append pre (List.replicate vs.length none) none v
    have h2 : applySetters (pre ++ List.replicate (v :: vs).length none)
        pre.length (v :: vs)
        = applySetters ((pre ++ [some v]) ++ List.replicate vs.length none)
          (pre.length + 1) vs := by
      rw [applySetters, List.length_cons, h1]
    rw [h2]
    have h3 := ih (pre ++ [some v])
    simp only [List.length_append, List.length_singleton] at h3
    rw [h3]
    simp

theorem buildInits_all_set (all : List (Option α)) (fs : List (FieldSpec α))
    (vs : List α) (h : fs.length = vs.length) :
    buildInits all (fs.zip (vs.map some)) = .ok vs := by
  induction fs generalizing vs with
  | nil =>
    cases vs with
    | nil => rfl
    | cons v vs => cases h
  | cons f fs ih =>
    cases vs with
    | nil => cases h
    | cons v vs =>
      have hrec := ih vs (Nat.succ_injective h)
      simp only [List.map_cons, List.zip_cons_cons]
      rw [buildInits]
      simp [initField, hrec]

/-- C2: starting from a fresh builder, calling every synthesized setter
with the values `v1..vN` in declaration order and then building returns
`Ok` of exactly the record assembled from `v1..vN` — the builder
round-trip is the identity on field values. -/
theorem c2_round_trip (fs : List (FieldSpec α)) (vs : List α)
    (h : fs.length = vs.length) :
    build fs none (applySetters (emptyBuilder α fs.length) 0 vs) = .ok vs := by
  have hfill := applySetters_fill vs ([] : List (Option α))
  simp only [List.nil_append, List.length_nil] at hfill
  rw [emptyBuilder, h, hfill]
  have hinit := buildInits_all_set (vs.map some) fs vs h
  simp [build, hinit]

/-- Witness for C2: setting both fields of a two-field builder and
building returns the record of exactly those values. -/
theorem c2_witness :
    build [(⟨"ipsum", none⟩ : FieldSpec Nat), ⟨"dolor", none⟩] none
      (applySetters (emptyBuilder Nat 2) 0 [42, 7]) = .ok [42, 7] :=
  c2_round_trip [⟨"ipsum", none⟩, ⟨"dolor", none⟩] [42, 7] rfl

theorem parseSetterItem_error (loc : Loc) (m : RawMeta) (e : ConfigError)
    (h : parseSetterItem loc m = .error e) : e = ⟨m.key, loc⟩ := by
  unfold parseSetterItem at h
  cases hrec : recognizeSetterItem loc m with
  | some d => rw [hrec] at h; cases h
  | none => rw [hrec] at h; cases h; rfl

theorem parseBuildFnItem_error (loc : Loc) (m : RawMeta) (e : ConfigError)
    (h : parseBuildFnItem loc m = .error e) : e = ⟨m.key, loc⟩ := by
  unfold parseBuildFnItem at h
  cases hrec : recognizeBuildFnItem m with
  | some d => rw [hrec] at h; cases h
  | none => rw [hrec] at h; cases h; rfl

theorem parseWord_error (loc : Loc) (k : String) (e : ConfigError)
    (h : parseWord loc k = .error e) : e = ⟨k, loc⟩ := by
  unfold parseWord at h
  split at h
  · cases h
  · cases h
  · split at h
    · cases h
    · cases h; rfl
  · cases h
  · cases h
  · cases h; rfl

theorem parseNameValue_error (loc : Loc) (k v : String) (e : ConfigError)
    (h : parseNameValue loc k v = .error e) : e = ⟨k, loc⟩ := by
  unfold parseNameValue at h
  split at h
  · cases h
  · split at h
    · cases h
    · cases h; rfl
  · cases h; rfl

theorem parseMetaList_error (loc : Loc) (k : String) (items : List RawMeta)
    (e : ConfigError) (h : parseMetaList loc k items = .error e) :
    e.loc = loc ∧ (e.key = k ∨ e.key ∈ items.map RawMeta.key) := by
  unfold parseMetaList at h
  split at h
  · obtain ⟨m, hm, hme⟩ := exceptMapM_error_mem _ _ _ h
    have he := parseSetterItem_error loc m e hme
    subst he
    exact ⟨rfl, Or.inr (List.mem_map_of_mem _ hm)⟩
  · split at h
    · obtain ⟨m, hm, hme⟩ := exceptMapM_error_mem _ _ _ h
      have he := parseBuildFnItem_error .record m e hme
      subst he
      exact ⟨rfl, Or.inr (List.mem_map_of_mem _ hm)⟩
    · cases h
      exact ⟨rfl, Or.inl rfl⟩
  · split at h
    · split at h
      · cases h
      · cases h
        exact ⟨rfl, Or.inl rfl⟩
    · cases h
      exact ⟨rfl, Or.inl rfl⟩
  · cases h
    exact ⟨rfl, Or.inl rfl⟩

theorem parseDirective_error_names (loc : Loc) (m : RawMeta) (e : ConfigError)
    (h : parseDirective loc m = .error e) :
    e.loc = loc ∧ e.key ∈ m.keys := by
  cases m with
  | word k =>
    have he := parseWord_error loc k e h
    subst he
    simp [RawMeta.keys]
  | nameValue k v =>
    have he := parseNameValue_error loc k v e h
    subst he
    simp [RawMeta.keys]
  | metaList k items =>
    have he := parseMetaList_error loc k items e h
    rcases he with ⟨hl, hk | hk⟩
    · exact ⟨hl, by simp [RawMeta.keys, hk]⟩
    · exact ⟨hl, by simp [RawMeta.keys, hk]⟩

theorem parseDirectives_error (loc : Loc) (ms : List RawMeta) (e : ConfigError)
    (h : parseDirectives loc ms = .error e) :
    ∃ m ∈ ms, parseDirective loc m = .error e := by
  unfold parseDirectives at h
  cases hmap : exceptMapM (parseDirective loc) ms with
  | error e' =>
    rw [hmap] at h
    cases h
    exact exceptMapM_error_mem _ _ _ hmap
  | ok dss => rw [hmap] at h; cases h

theorem parseDirectives_ok (loc : Loc) (ms : List RawMeta)
    (ds : List Directive) (h : parseDirectives loc ms = .ok ds) :
    ∀ m ∈ ms, ∃ ds', parseDirective loc m = .ok ds' := by
  unfold parseDirectives at h
  cases hmap : exceptMapM (parseDirective loc) ms with
  | error e' => rw [hmap] at h; cases h
  | ok dss => exact exceptMapM_ok_forall _ _ _ hmap

/-- C9: a record or field carrying an unrecognized or malformed
directive makes the whole synthesis fail: the pipeline returns a
`ConfigError` that is the parse error of an offending directive item,
naming one of that item's keys and its true attachment location, and no
artifact is produced. -/
theorem c9_config_error_surfaces (s : RecordSchema)
    (hbad : (∃ m ∈ s.recordDirectives, ∃ e, parseDirective .record m = .error e)
      ∨ (∃ f ∈ s.fields, ∃ m ∈ f.directives, ∃ e,
          parseDirective (.field f.name) m = .error e)) :
    ∃ e, synthesize s = .error e ∧
      ((∃ m ∈ s.recordDirectives, parseDirective .record m = .error e ∧
          e.loc = .record ∧ e.key ∈ m.keys)
        ∨ (∃ f ∈ s.fields, ∃ m ∈ f.directives,
            parseDirective (.field f.name) m = .error e ∧
            e.loc = .field f.name ∧ e.key ∈ m.keys)) := by
  cases hrec : parseDirectives .record s.recordDirectives with
  | error e =>
    obtain ⟨m, hm, hme⟩ := parseDirectives_error _ _ _ hrec
    obtain ⟨hl, hk⟩ := parseDirective_error_names _ _ _ hme
    exact ⟨e, by simp [synthesize, hrec], Or.inl ⟨m, hm, hme, hl, hk⟩⟩
  | ok rds =>
    cases hflds : exceptMapM
        (fun f =>
          match parseDirectives (.field f.name) f.directives with
          | .error e => .error e
          | .ok fds =>
            .ok (field_options_from f.name (recordOptionsOfDirectives rds)
              (fieldOptionsOfDirectives fds)))
        s.fields with
    | error e =>
      obtain ⟨f, hf, hfe⟩ := exceptMapM_error_mem _ _ _ hflds
      have hsyn : synthesize s = .error e := by
        simp [synthesize, hrec, hflds]
      cases hp : parseDirectives (.field f.name) f.directives with
      | error e' =>
        rw [hp] at hfe
        cases hfe
        obtain ⟨m, hm, hme⟩ := parseDirectives_error _ _ _ hp
        obtain ⟨hl, hk⟩ := parseDirective_error_names _ _ _ hme
        exact ⟨e, hsyn, Or.inr ⟨f, hf, m, hm, hme, hl, hk⟩⟩
      | ok fds => rw [hp] at hfe; cases hfe
    | ok cfgs =>
      exfalso
      rcases hbad with ⟨m, hm, e, hme⟩ | ⟨f, hf, m, hm, e, hme⟩
      · obtain ⟨ds', hok⟩ := parseDirectives_ok _ _ _ hrec m hm
        rw [hok] at hme
        cases hme
      · obtain ⟨cfg, hcfg⟩ := exceptMapM_ok_forall _ _ _ hflds f hf
        cases hp : parseDirectives (.field f.name) f.directives with
        | error e' => rw [hp] at hcfg; cases hcfg
        | ok fds =>
          obtain ⟨ds', hok⟩ := parseDirectives_ok _ _ _ hp m hm
          rw [hok] at hme
          cases hme

/-- Witness for C9: a record whose record-level directives contain the
unrecognized key `bogus`; synthesis fails with an error naming `bogus`
at record level. -/
theorem c9_witness :
    ∃ e, synthesize ⟨"Lorem", [RawMeta.word "bogus"], []⟩ = .error e ∧
      ((∃ m ∈ [RawMeta.word "bogus"],
          parseDirective .record m = .error e ∧
          e.loc = .record ∧ e.key ∈ m.keys)
        ∨ (∃ f ∈ ([] : List FieldSchema), ∃ m ∈ f.directives,
            parseDirective (.field f.name) m = .error e ∧
            e.loc = .field f.name ∧ e.key ∈ m.keys)) :=
  c9_config_error_surfaces ⟨"Lorem", [RawMeta.word "bogus"], []⟩
    (Or.inl ⟨RawMeta.word "bogus", List.mem_singleton_self _,
      ⟨"bogus", .record⟩, rfl⟩)

/-- C10: `builder_for_struct` (lib.rs lines 567-570) panics — modelled
as `none` — on every input whose body is not a braced struct with named
fields (tuple structs, unit structs, enums), producing no builder
description and no returned error value. -/
theorem c10_non_braced_struct_panics (ast : MacroInput)
    (h : ∀ fields, ast.body ≠ Body.structBody (.structFields fields)) :
    builder_for_struct ast = none := by
  obtain ⟨id, attrs, body⟩ := ast
  cases body with
  | structBody v =>
    cases v with
    | structFields fields => exact absurd rfl (h fields)
    | tuple n => rfl
    | unit => rfl
  | enumBody vs => rfl

/-- Witness for C10: deriving on an enum panics (no artifact). -/
theorem c10_witness :
    builder_for_struct ⟨"Lorem", [], .enumBody ["A", "B"]⟩ = none :=
  c10_non_braced_struct_panics ⟨"Lorem", [], .enumBody ["A", "B"]⟩
    (fun fields h => by cases h)

end DeriveBuilder
